import Mathlib

/-!
# WindowsControl — verification of the power-action request pipeline

Shallow embedding of the Go program in `main.go` and `service_windows.go`:
the delay parser (`parseDelay`), the command translation and HTTP handler
(`handlePowerAction` and the three endpoint handlers), and the service
lifecycle routine (`windowsService.Execute`).

The request body is decoded with `encoding/json`'s streaming
`Decoder.Decode` into `struct { DelaySeconds int }`.  That decoder is
modelled concretely below (`decodeFirstValue`, `unmarshalPayload`): it
reads exactly one JSON value from the stream (trailing bytes are not
examined), an empty stream yields `io.EOF`, `null` leaves the struct at
its zero value, object keys match the field case-insensitively with
unknown keys ignored, and a number bound to the `int` field must have
integer syntax.  String escape sequences are modelled only to the depth
of their syntax (an escaped character stands for itself), which is all
the claims exercise.
-/

namespace WindowsControl

/-- The character `{`, kept out of string/char literals. -/
def lbrace : Char := Char.ofNat 123

/-- The character `}`, kept out of string/char literals. -/
def rbrace : Char := Char.ofNat 125

/-- A decoded JSON value, at the fidelity the payload struct needs:
numbers only record whether they have integer syntax and, if so, their
integer value. -/
inductive Json where
  | null
  | boolVal (b : Bool)
  | intNum (n : Int)
  | floatNum
  | strVal (s : String)
  | arrVal (elems : List Json)
  | objVal (fields : List (String × Json))
deriving Repr

/-- JSON insignificant whitespace. -/
def isWsChar (c : Char) : Bool :=
  c == ' ' || c == '\t' || c == '\n' || c == '\r'

/-- Drop leading JSON whitespace. -/
def skipWs : List Char → List Char
  | [] => []
  | c :: rest => if isWsChar c then skipWs rest else c :: rest

/-- Split a leading run of decimal digits from the rest. -/
def takeDigits : List Char → List Char × List Char
  | [] => ([], [])
  | c :: rest =>
    if c.isDigit then
      let p := takeDigits rest
      (c :: p.1, p.2)
    else ([], c :: rest)

/-- Value of a list of decimal digit characters. -/
def digitsToNat (ds : List Char) : Nat :=
  ds.foldl (fun acc c => acc * 10 + (c.toNat - 48)) 0

/-- After an `e`/`E` exponent marker: optional sign, then at least one
digit. -/
def parseExpTail (cs : List Char) : Option (List Char) :=
  let cs1 := match cs with
    | '+' :: r => r
    | '-' :: r => r
    | _ => cs
  let p := takeDigits cs1
  if p.1.isEmpty then none else some p.2

/-- Parse a JSON number (the input starts with `-` or a digit).  A
number with a fraction or exponent part does not have integer syntax and
becomes `Json.floatNum`. -/
def parseNumber (cs : List Char) : Option (Json × List Char) :=
  let sp : Bool × List Char := match cs with
    | '-' :: r => (true, r)
    | _ => (false, cs)
  let dp := takeDigits sp.2
  if dp.1.isEmpty then none
  else
    let n : Int := if sp.1 then -(digitsToNat dp.1 : Int) else (digitsToNat dp.1 : Int)
    match dp.2 with
    | '.' :: r =>
      let fp := takeDigits r
      if fp.1.isEmpty then none
      else
        match fp.2 with
        | 'e' :: r2 => (parseExpTail r2).map (fun rest => (Json.floatNum, rest))
        | 'E' :: r2 => (parseExpTail r2).map (fun rest => (Json.floatNum, rest))
        | cs3 => some (Json.floatNum, cs3)
    | 'e' :: r2 => (parseExpTail r2).map (fun rest => (Json.floatNum, rest))
    | 'E' :: r2 => (parseExpTail r2).map (fun rest => (Json.floatNum, rest))
    | cs2 => some (Json.intNum n, cs2)

/-- Parse the body of a JSON string after its opening quote.  The fuel
is at least the remaining input length, so it never runs out on the
strings actually consumed. -/
def parseStringAux : Nat → List Char → List Char → Option (String × List Char)
  | 0, _, _ => none
  | fuel + 1, acc, cs =>
    match cs with
    | [] => none
    | '"' :: rest => some (String.mk acc.reverse, rest)
    | '\\' :: e :: rest => parseStringAux fuel (e :: acc) rest
    | '\\' :: [] => none
    | c :: rest => parseStringAux fuel (c :: acc) rest

mutual

/-- Parse one JSON value, fuelled. -/
def parseValue : Nat → List Char → Option (Json × List Char)
  | 0, _ => none
  | fuel + 1, cs =>
    match skipWs cs with
    | [] => none
    | 'n' :: 'u' :: 'l' :: 'l' :: rest => some (Json.null, rest)
    | 't' :: 'r' :: 'u' :: 'e' :: rest => some (Json.boolVal true, rest)
    | 'f' :: 'a' :: 'l' :: 's' :: 'e' :: rest => some (Json.boolVal false, rest)
    | '"' :: rest => (parseStringAux (rest.length + 1) [] rest).map (fun p => (Json.strVal p.1, p.2))
    | '[' :: rest =>
      match skipWs rest with
      | ']' :: rest2 => some (Json.arrVal [], rest2)
      | cs2 => parseElems fuel [] cs2
    | c :: rest =>
      if c = lbrace then
        match skipWs rest with
        | c2 :: rest2 =>
          if c2 = rbrace then some (Json.objVal [], rest2)
          else parseFields fuel [] (c2 :: rest2)
        | [] => none
      else if c == '-' || c.isDigit then parseNumber (c :: rest)
      else none

/-- Parse the elements of a non-empty JSON array, fuelled. -/
def parseElems : Nat → List Json → List Char → Option (Json × List Char)
  | 0, _, _ => none
  | fuel + 1, acc, cs =>
    match parseValue fuel cs with
    | none => none
    | some (v, cs1) =>
      match skipWs cs1 with
      | ',' :: rest => parseElems fuel (v :: acc) rest
      | ']' :: rest => some (Json.arrVal (acc.reverse ++ [v]), rest)
      | _ => none

/-- Parse the fields of a non-empty JSON object, fuelled. -/
def parseFields : Nat → List (String × Json) → List Char → Option (Json × List Char)
  | 0, _, _ => none
  | fuel + 1, acc, cs =>
    match skipWs cs with
    | '"' :: rest =>
      match parseStringAux (rest.length + 1) [] rest with
      | none => none
      | some (key, cs1) =>
        match skipWs cs1 with
        | ':' :: cs2 =>
          match parseValue fuel cs2 with
          | none => none
          | some (v, cs3) =>
            match skipWs cs3 with
            | ',' :: rest2 => parseFields fuel ((key, v) :: acc) rest2
            | c :: rest2 =>
              if c = rbrace then some (Json.objVal (acc.reverse ++ [(key, v)]), rest2)
              else none
            | [] => none
        | _ => none
    | _ => none

end

/-- Outcome of one `Decoder.Decode` call: the stream held no value
(`io.EOF`), the first value on the stream, or a syntax error inside the
first value. -/
inductive DecodeOutcome where
  | eof
  | val (j : Json)
  | decodeErr
deriving Repr

/-- Fuel bound: generous for the one value the decoder reads. -/
def decodeFuel (s : String) : Nat := 2 * s.length + 8

/-- One `Decoder.Decode` call on the request body: skip whitespace; an
exhausted stream is `io.EOF`; otherwise read exactly one JSON value and
leave any trailing bytes unexamined. -/
def decodeFirstValue (s : String) : DecodeOutcome :=
  match skipWs s.toList with
  | [] => DecodeOutcome.eof
  | cs =>
    match parseValue (decodeFuel s) cs with
    | some (j, _) => DecodeOutcome.val j
    | none => DecodeOutcome.decodeErr

/-- ASCII lower-casing of one character, for the decoder's
case-insensitive field-name match. -/
def lowerChar (c : Char) : Char :=
  if 65 ≤ c.toNat && c.toNat ≤ 90 then Char.ofNat (c.toNat + 32) else c

/-- ASCII lower-casing of a field name. -/
def lowerKey (s : String) : String := String.mk (s.toList.map lowerChar)

/-- Fold a decoded object's fields into `struct { DelaySeconds int }`:
keys matching the field case-insensitively bind it (later keys win, a
non-integer value is a type error), all other keys are ignored. -/
def applyFields : List (String × Json) → Int → Except String Int
  | [], d => Except.ok d
  | (k, v) :: rest, d =>
    if lowerKey k = "delayseconds" then
      match v with
      | Json.intNum n => applyFields rest n
      | _ => Except.error "json: cannot unmarshal value into Go struct field .delaySeconds of type int"
    else applyFields rest d

/-- Unmarshal one decoded JSON value into `struct { DelaySeconds int }`
(zero value 0): `null` is a no-op, an object binds its fields, anything
else is a type error. -/
def unmarshalPayload : Json → Except String Int
  | Json.null => Except.ok 0
  | Json.objVal fields => applyFields fields 0
  | _ => Except.error "json: cannot unmarshal value into Go value of type struct"

/-- The two error kinds `parseDelay` can produce. -/
inductive DelayError where
  | invalidDelay (msg : String)
  | malformedRequest (msg : String)
deriving Repr, DecidableEq

/-- The `Error()` string of a `DelayError`: a malformed request wraps
the underlying decode failure as `fmt.Errorf("invalid request body: %w", err)`
does. -/
def DelayError.message : DelayError → String
  | DelayError.invalidDelay m => m
  | DelayError.malformedRequest m => "invalid request body: " ++ m

/-- The underlying decode-failure message a syntax error carries. -/
def decodeErrMsg : String := "invalid character in JSON value"

/-- `parseDelay` from `main.go`: a nil body yields 0; decode one value
from the body; `io.EOF` (empty body) yields 0; a decode failure is
wrapped as a malformed request; a negative decoded value is rejected;
otherwise the decoded value is returned. -/
def parseDelay (body : Option String) : Except DelayError Int :=
  match body with
  | none => Except.ok 0
  | some s =>
    match decodeFirstValue s with
    | DecodeOutcome.eof => Except.ok 0
    | DecodeOutcome.decodeErr => Except.error (DelayError.malformedRequest decodeErrMsg)
    | DecodeOutcome.val j =>
      match unmarshalPayload j with
      | Except.error m => Except.error (DelayError.malformedRequest m)
      | Except.ok d =>
        if d < 0 then Except.error (DelayError.invalidDelay "delaySeconds must be zero or positive")
        else Except.ok d

/-! ## Command translation and the HTTP handler -/

/-- The logical power action behind each of the three endpoints. -/
inductive PowerActionKind where
  | shutdown
  | restart
  | restartToFirmware
deriving Repr, DecidableEq

/-- The base flags each endpoint handler passes to `handlePowerAction`:
`["/s"]` for `/shutdown`, `["/r"]` for `/restart`, `["/r", "/fw"]` for
`/restart-bios`. -/
def baseArgs : PowerActionKind → List String
  | PowerActionKind.shutdown => ["/s"]
  | PowerActionKind.restart => ["/r"]
  | PowerActionKind.restartToFirmware => ["/r", "/fw"]

/-- The argument list `handlePowerAction` builds for the `shutdown`
utility: `args := append([]string\x7b\x7d, baseArgs...)` then
`append(args, "/t", strconv.Itoa(delaySeconds))`. -/
def buildArgs (k : PowerActionKind) (d : Int) : List String :=
  baseArgs k ++ ["/t", toString d]

/-- Two's-complement wrap to int64, as all Go arithmetic on
`time.Duration` (int64 nanoseconds) behaves. -/
def i64wrap (x : Int) : Int :=
  (x + 9223372036854775808) % 18446744073709551616 - 9223372036854775808

/-- `time.lessThanHalf`: whether `x + x < m`. -/
def lessThanHalf (x m : Int) : Bool := decide (x + x < m)

/-- `Duration.Round` from Go's `time` package: round to the nearest
multiple of `m`, half away from zero; `%` is Go's truncated remainder,
the overflow-checked sums wrap at int64 and fall back to the extreme
durations. -/
def goDurationRound (d m : Int) : Int :=
  if m ≤ 0 then d
  else
    let r := Int.tmod d m
    if d < 0 then
      let r := -r
      if lessThanHalf r m then d + r
      else
        let d1 := i64wrap (d - m + r)
        if d1 < d then d1 else -9223372036854775808
    else
      if lessThanHalf r m then d - r
      else
        let d1 := i64wrap (d + m - r)
        if d1 > d then d1 else 9223372036854775807

/-- Remove trailing `0` characters. -/
def stripTrailingZeros (l : List Char) : List Char :=
  (l.reverse.dropWhile (fun c => c == '0')).reverse

/-- `time.fmtFrac`: the fraction of `v` at the given decimal precision
(preceded by `.`, trailing zeros omitted, empty when the fraction is
zero), together with `v` shifted down by the precision. -/
def fmtFrac (v : Nat) (prec : Nat) : String × Nat :=
  let p := 10 ^ prec
  let frac := v % p
  let rest := v / p
  if frac = 0 then ("", rest)
  else
    let ds := (Nat.repr frac).toList
    let padded := List.replicate (prec - ds.length) '0' ++ ds
    ("." ++ String.mk (stripTrailingZeros padded), rest)

/-- The `h`/`m`/`s` part of `Duration.String()` for a whole number of
seconds with an already-formatted fraction `f`: seconds always, minutes
when any, hours (unbounded) when any. -/
def secondsCore (secs : Nat) (f : String) : String :=
  let s1 := Nat.repr (secs % 60) ++ f ++ "s"
  let m := secs / 60
  if m = 0 then s1
  else
    let s2 := Nat.repr (m % 60) ++ "m" ++ s1
    if m / 60 = 0 then s2
    else Nat.repr (m / 60) ++ "h" ++ s2

/-- `Duration.String()` from Go's `time` package, on a (wrapped) int64
nanosecond count: magnitude with a sign, `0s`/`ns`/`µs`/`ms` below one
second, `h`/`m`/`s` with a fractional-second part otherwise. -/
def goDurationString (d : Int) : String :=
  let u : Nat := d.natAbs
  let core :=
    if u < 1000000000 then
      if u = 0 then "0s"
      else if u < 1000 then Nat.repr u ++ "ns"
      else if u < 1000000 then
        let fr := fmtFrac u 3
        Nat.repr fr.2 ++ fr.1 ++ "µs"
      else
        let fr := fmtFrac u 6
        Nat.repr fr.2 ++ fr.1 ++ "ms"
    else
      let fr := fmtFrac u 9
      secondsCore fr.2 fr.1
  if d < 0 then "-" ++ core else core

/-- The delay rendering in the success branch of `handlePowerAction`:
`time.Duration(delaySeconds) * time.Second` computed in wrapping int64
nanoseconds, rounded to the nearest second by `Round(time.Second)`, and
rendered by `Duration.String()`. -/
def formatGoDuration (d : Int) : String :=
  goDurationString (goDurationRound (i64wrap (d * 1000000000)) 1000000000)

/-- Follows the spec's words, for comparison with `formatGoDuration`:
the idealised "human-readable restatement of the scheduled delay" — the
`h`/`m`/`s` rendering of `delaySeconds` itself, with no int64 wrap. -/
def idealSecondsRendering (d : Int) : String := secondsCore d.toNat ""

/-- A response body: the `writeJSON` envelope (a JSON object with the
single string field `message`), or the plain text written by
`http.Error`. -/
inductive BodyKind where
  | jsonMsg (message : String)
  | plainText (text : String)
deriving Repr, DecidableEq

/-- Everything observable about one call of `handlePowerAction`: the
HTTP status and body written, the argument list passed to
`exec.Command("shutdown", args...).Run()` if that point was reached, and
the `(args, error)` pair logged when the command failed. -/
structure HandlerResult where
  status : Nat
  body : BodyKind
  invoked : Option (List String)
  logged : Option (List String × String)
deriving Repr, DecidableEq

/-- `handlePowerAction` from `main.go`.  The executing platform is the
`goos` argument (`runtime.GOOS`), and the command execution
`cmd.Run()` is the `exec` oracle: `none` for exit status zero, or
`some osErr` for a spawn failure / non-zero exit. -/
def handlePowerAction (goos method : String) (reqBody : Option String)
    (exec : List String → Option String) (base : List String)
    (successMessage : String) : HandlerResult :=
  if method ≠ "POST" then
    ⟨405, BodyKind.plainText "method not allowed", none, none⟩
  else if goos ≠ "windows" then
    ⟨501, BodyKind.jsonMsg "Power control commands are available only on Windows hosts.",
      none, none⟩
  else
    match parseDelay reqBody with
    | Except.error e => ⟨400, BodyKind.jsonMsg e.message, none, none⟩
    | Except.ok delaySeconds =>
      let args := base ++ ["/t", toString delaySeconds]
      match exec args with
      | some osErr =>
        ⟨500, BodyKind.jsonMsg "Failed to execute power command.", some args, some (args, osErr)⟩
      | none =>
        let message :=
          if delaySeconds > 0 then
            successMessage ++ " It will run in " ++ formatGoDuration delaySeconds ++ "."
          else successMessage
        ⟨200, BodyKind.jsonMsg message, some args, none⟩

/-- Handler bound to `POST /shutdown`. -/
def shutdownHandler (goos method : String) (reqBody : Option String)
    (exec : List String → Option String) : HandlerResult :=
  handlePowerAction goos method reqBody exec ["/s"]
    "Shutdown command staged. The machine is powering off."

/-- Handler bound to `POST /restart`. -/
def restartHandler (goos method : String) (reqBody : Option String)
    (exec : List String → Option String) : HandlerResult :=
  handlePowerAction goos method reqBody exec ["/r"]
    "Restart command staged. The machine is restarting."

/-- Handler bound to `POST /restart-bios`. -/
def restartFirmwareHandler (goos method : String) (reqBody : Option String)
    (exec : List String → Option String) : HandlerResult :=
  handlePowerAction goos method reqBody exec ["/r", "/fw"]
    "Firmware restart command staged. The machine will reboot into BIOS/UEFI."

/-! ## Service lifecycle (`service_windows.go`) -/

/-- The service states `windowsService.Execute` can report. -/
inductive SvcState where
  | startPending
  | running
  | stopPending
  | stopped
deriving Repr, DecidableEq

/-- Control requests arriving on the service's change-request channel. -/
inductive SvcCmd where
  | interrogate
  | stop
  | shutdown
  | other
deriving Repr, DecidableEq

/-- An event observed by `Execute`'s select loop: the server goroutine
finished (with `runHTTPServer`'s result), or a control request
arrived. -/
inductive SvcEvent where
  | serverDone (err : Option String)
  | control (c : SvcCmd)
deriving Repr, DecidableEq

/-- A status report to the service manager: the state, and whether
Stop/Shutdown are accepted (`Accepts = accepts` vs `Accepts = 0`). -/
structure SvcStatus where
  state : SvcState
  acceptsStopShutdown : Bool
deriving Repr, DecidableEq

/-- The status `Execute` holds in its loop: Running, accepting
Stop/Shutdown. -/
def runningStatus : SvcStatus := ⟨SvcState.running, true⟩

/-- What a run of `Execute` reports and returns: the ordered statuses
sent on `changes`, and the `(svcSpecificEC, exitCode)` return pair
(`none` while still waiting for further events). -/
structure ExecOutcome where
  trace : List SvcStatus
  returned : Option (Bool × Nat)
deriving Repr, DecidableEq

/-- The select loop of `Execute`, driven by the sequence of events it
observes.  The loop's `status` variable is `runningStatus` throughout
(it is only reassigned on the paths that leave the loop): Interrogate
reports it unchanged, unknown commands are ignored, a server exit
reports Stopped and returns `(false, 0)`, and Stop/Shutdown reports
StopPending, cancels and waits for the server, reports Stopped, and
returns `(true, 0)`; events after a terminating one are never read. -/
def serviceLoop : List SvcEvent → ExecOutcome
  | [] => ⟨[], none⟩
  | SvcEvent.serverDone _ :: _ =>
    ⟨[⟨SvcState.stopped, false⟩], some (false, 0)⟩
  | SvcEvent.control SvcCmd.interrogate :: rest =>
    let r := serviceLoop rest
    ⟨runningStatus :: r.trace, r.returned⟩
  | SvcEvent.control SvcCmd.stop :: _ =>
    ⟨[⟨SvcState.stopPending, true⟩, ⟨SvcState.stopped, false⟩], some (true, 0)⟩
  | SvcEvent.control SvcCmd.shutdown :: _ =>
    ⟨[⟨SvcState.stopPending, true⟩, ⟨SvcState.stopped, false⟩], some (true, 0)⟩
  | SvcEvent.control SvcCmd.other :: rest => serviceLoop rest

/-- `windowsService.Execute`: report StartPending, start the server,
report Running (accepting Stop/Shutdown), then run the select loop. -/
def windowsServiceExecute (events : List SvcEvent) : ExecOutcome :=
  let r := serviceLoop events
  ⟨⟨SvcState.startPending, false⟩ :: runningStatus :: r.trace, r.returned⟩

/-! ## Process exit status on startup failure -/

/-- Standalone `main`: `runHTTPServer` returns the `ListenAndServe`
error (for instance a failed bind) and `log.Fatalf` exits with status 1;
with no error, `main` returns and the process exits 0. -/
def mainStandaloneExitCode (serverResult : Option String) : Nat :=
  match serverResult with
  | some _ => 1
  | none => 0

/-- Supervised `main`: `svc.Run` drives `Execute`; `Execute`'s `uint32`
return (the second component of `ExecOutcome.returned`) is the service
exit code reported to the service control manager, `svc.Run` then
returns `nil`, `maybeRunService` returns `(true, nil)`, and `main`
returns normally — the process exit status is 0 on every path,
whatever the service observed. -/
def mainSupervisedExitCode (events : List SvcEvent) : Nat :=
  let _ := windowsServiceExecute events
  0

/-- Position of a state in the linear lifecycle order. -/
def SvcState.ord : SvcState → Nat
  | SvcState.startPending => 0
  | SvcState.running => 1
  | SvcState.stopPending => 2
  | SvcState.stopped => 3

/-- Whether a response body is the `writeJSON` envelope (a JSON object
with the single string field `message`). -/
def BodyKind.isJsonEnvelope : BodyKind → Bool
  | BodyKind.jsonMsg _ => true
  | BodyKind.plainText _ => false

example : parseDelay none = Except.ok 0 := rfl
example : parseDelay (some "") = Except.ok 0 := rfl
example : parseDelay (some "\x7b\x7d") = Except.ok 0 := rfl
example : parseDelay (some "null") = Except.ok 0 := rfl
example : parseDelay (some "\x7b\"delaySeconds\": 30\x7d") = Except.ok 30 := rfl
example : parseDelay (some "\x7b\"delaySeconds\": -5\x7d") =
    Except.error (DelayError.invalidDelay "delaySeconds must be zero or positive") := rfl
example : parseDelay (some "\x7b\"delaySeconds\":5\x7dgarbage") = Except.ok 5 := rfl
example : parseDelay (some "garbage") =
    Except.error (DelayError.malformedRequest decodeErrMsg) := rfl
example : parseDelay (some "\x7b\"delaySeconds\": \"x\"\x7d") =
    Except.error (DelayError.malformedRequest
      "json: cannot unmarshal value into Go struct field .delaySeconds of type int") := rfl
example : parseDelay (some "\x7b\"other\": [1, 2.5], \"delaySeconds\": 30\x7d") =
    Except.ok 30 := rfl

/-! ## Helper lemmas -/

lemma digitChar_lt10_ne_slash : ∀ m : Nat, m < 10 → Nat.digitChar m ≠ '/' := by decide

lemma toDigitsCore_ne_slash (fuel : Nat) : ∀ (n : Nat) (ds : List Char),
    (∀ c ∈ ds, c ≠ '/') → ∀ c ∈ Nat.toDigitsCore 10 fuel n ds, c ≠ '/' := by
  induction fuel with
  | zero =>
    intro n ds h c hc
    exact h c hc
  | succ fuel ih =>
    intro n ds h c hc
    have hd : Nat.digitChar (n % 10) ≠ '/' :=
      digitChar_lt10_ne_slash _ (Nat.mod_lt _ (by decide))
    simp only [Nat.toDigitsCore] at hc
    by_cases h10 : n / 10 = 0
    · rw [if_pos h10] at hc
      rcases List.mem_cons.mp hc with h1 | h2
      · exact h1 ▸ hd
      · exact h c h2
    · rw [if_neg h10] at hc
      refine ih (n / 10) (Nat.digitChar (n % 10) :: ds) ?_ c hc
      intro c' hc'
      rcases List.mem_cons.mp hc' with h1 | h2
      · exact h1 ▸ hd
      · exact h c' h2

lemma natRepr_ne_slash_t (n : Nat) : Nat.repr n ≠ "/t" := by
  intro h
  have h2 : '/' ∈ (Nat.repr n).toList := by rw [h]; decide
  have h3 : (Nat.repr n).toList = Nat.toDigitsCore 10 (n + 1) n [] := rfl
  rw [h3] at h2
  exact toDigitsCore_ne_slash (n + 1) n [] (by simp) '/' h2 rfl

lemma intToString_ne_slash_t (d : Int) (hd : 0 ≤ d) : toString d ≠ "/t" := by
  obtain ⟨n, rfl⟩ := Int.eq_ofNat_of_zero_le hd
  show Nat.repr n ≠ "/t"
  exact natRepr_ne_slash_t n

/-! ## Claims -/

/-- C1: for every action kind and every validated delay `d ≥ 0`, the
command translation is exactly the base flags followed by one `/t` flag
with value `d`: Shutdown gives `["/s", "/t", d]`, Restart gives
`["/r", "/t", d]`, RestartToFirmware gives `["/r", "/fw", "/t", d]`;
`/t` occurs exactly once, and no arguments other than the base flags and
the delay flag/value appear. -/
theorem commandTranslator_args (d : Int) (hd : 0 ≤ d) :
    buildArgs PowerActionKind.shutdown d = ["/s", "/t", toString d] ∧
    buildArgs PowerActionKind.restart d = ["/r", "/t", toString d] ∧
    buildArgs PowerActionKind.restartToFirmware d = ["/r", "/fw", "/t", toString d] ∧
    (∀ k, (buildArgs k d).count "/t" = 1) ∧
    (∀ k, ∀ a ∈ buildArgs k d, a ∈ baseArgs k ∨ a = "/t" ∨ a = toString d) := by
  have hne : toString d ≠ "/t" := intToString_ne_slash_t d hd
  refine ⟨rfl, rfl, rfl, ?_, ?_⟩
  · intro k
    cases k <;>
      simp [buildArgs, baseArgs, List.count_cons, List.count_nil, hne]
  · intro k a ha
    rcases List.mem_append.mp ha with h | h
    · exact Or.inl h
    · rcases List.mem_cons.mp h with h1 | h2
      · exact Or.inr (Or.inl h1)
      · exact Or.inr (Or.inr (List.mem_singleton.mp h2))

/-- C1 witness: the translation at delay 30. -/
theorem commandTranslator_args_witness :
    buildArgs PowerActionKind.shutdown 30 = ["/s", "/t", "30"] ∧
    buildArgs PowerActionKind.restart 30 = ["/r", "/t", "30"] ∧
    buildArgs PowerActionKind.restartToFirmware 30 = ["/r", "/fw", "/t", "30"] ∧
    (buildArgs PowerActionKind.restartToFirmware 30).count "/t" = 1 :=
  ⟨(commandTranslator_args 30 (by decide)).1,
   (commandTranslator_args 30 (by decide)).2.1,
   (commandTranslator_args 30 (by decide)).2.2.1,
   (commandTranslator_args 30 (by decide)).2.2.2.1 PowerActionKind.restartToFirmware⟩

/-- C2: `parseDelay` yields 0 for a missing body, an empty body, and the
body consisting of an empty object; a body whose first JSON value
unmarshals to a negative `delaySeconds` yields an `invalidDelay` error
with the exact message `delaySeconds must be zero or positive`; a body
that does not decode yields a `malformedRequest` error whose `Error()`
string wraps the underlying decode failure; and a body unmarshalling to
a non-negative value yields exactly that value. -/
theorem parseDelay_spec :
    parseDelay none = Except.ok 0 ∧
    parseDelay (some "") = Except.ok 0 ∧
    parseDelay (some "\x7b\x7d") = Except.ok 0 ∧
    (∀ s : String, decodeFirstValue s = DecodeOutcome.eof → parseDelay (some s) = Except.ok 0) ∧
    (∀ (s : String) (j : Json) (d : Int), decodeFirstValue s = DecodeOutcome.val j →
      unmarshalPayload j = Except.ok d → d < 0 →
      parseDelay (some s) =
        Except.error (DelayError.invalidDelay "delaySeconds must be zero or positive")) ∧
    (∀ (s : String) (j : Json) (d : Int), decodeFirstValue s = DecodeOutcome.val j →
      unmarshalPayload j = Except.ok d → 0 ≤ d → parseDelay (some s) = Except.ok d) ∧
    (∀ (s : String) (j : Json) (m : String), decodeFirstValue s = DecodeOutcome.val j →
      unmarshalPayload j = Except.error m →
      parseDelay (some s) = Except.error (DelayError.malformedRequest m) ∧
        (DelayError.malformedRequest m).message = "invalid request body: " ++ m) ∧
    (∀ s : String, decodeFirstValue s = DecodeOutcome.decodeErr →
      parseDelay (some s) = Except.error (DelayError.malformedRequest decodeErrMsg) ∧
        (DelayError.malformedRequest decodeErrMsg).message =
          "invalid request body: " ++ decodeErrMsg) := by
  refine ⟨rfl, rfl, rfl, ?_, ?_, ?_, ?_, ?_⟩
  · intro s h
    simp [parseDelay, h]
  · intro s j d h1 h2 h3
    simp only [parseDelay, h1, h2]
    rw [if_pos h3]
  · intro s j d h1 h2 h3
    simp only [parseDelay, h1, h2]
    rw [if_neg (by omega)]
  · intro s j m h1 h2
    exact ⟨by simp [parseDelay, h1, h2], rfl⟩
  · intro s h
    exact ⟨by simp [parseDelay, h], rfl⟩

/-- C2 witness: concrete bodies for the negative, malformed and
non-negative branches. -/
theorem parseDelay_spec_witness :
    parseDelay (some "\x7b\"delaySeconds\": -5\x7d") =
      Except.error (DelayError.invalidDelay "delaySeconds must be zero or positive") ∧
    parseDelay (some "\x7b\"delaySeconds\": 30\x7d") = Except.ok 30 ∧
    parseDelay (some "garbage") =
      Except.error (DelayError.malformedRequest decodeErrMsg) :=
  ⟨parseDelay_spec.2.2.2.2.1 "\x7b\"delaySeconds\": -5\x7d"
      (Json.objVal [("delaySeconds", Json.intNum (-5))]) (-5) rfl rfl (by decide),
   parseDelay_spec.2.2.2.2.2.1 "\x7b\"delaySeconds\": 30\x7d"
      (Json.objVal [("delaySeconds", Json.intNum 30)]) 30 rfl rfl (by decide),
   (parseDelay_spec.2.2.2.2.2.2.2 "garbage" rfl).1⟩

lemma handle_not_post {goos method : String} {reqBody : Option String}
    {exec : List String → Option String} {base : List String} {msg : String}
    (h : method ≠ "POST") :
    handlePowerAction goos method reqBody exec base msg =
      ⟨405, BodyKind.plainText "method not allowed", none, none⟩ := by
  simp [handlePowerAction, h]

lemma handle_not_windows {goos : String} {reqBody : Option String}
    {exec : List String → Option String} {base : List String} {msg : String}
    (h : goos ≠ "windows") :
    handlePowerAction goos "POST" reqBody exec base msg =
      ⟨501, BodyKind.jsonMsg "Power control commands are available only on Windows hosts.",
        none, none⟩ := by
  simp only [handlePowerAction]
  rw [if_neg (by simp), if_pos h]

lemma handle_parse_error {reqBody : Option String} {exec : List String → Option String}
    {base : List String} {msg : String} {e : DelayError}
    (h : parseDelay reqBody = Except.error e) :
    handlePowerAction "windows" "POST" reqBody exec base msg =
      ⟨400, BodyKind.jsonMsg e.message, none, none⟩ := by
  simp [handlePowerAction, h]

lemma handle_exec_fail {reqBody : Option String} {exec : List String → Option String}
    {base : List String} {msg osErr : String} {d : Int}
    (hp : parseDelay reqBody = Except.ok d)
    (hx : exec (base ++ ["/t", toString d]) = some osErr) :
    handlePowerAction "windows" "POST" reqBody exec base msg =
      ⟨500, BodyKind.jsonMsg "Failed to execute power command.",
        some (base ++ ["/t", toString d]), some (base ++ ["/t", toString d], osErr)⟩ := by
  simp [handlePowerAction, hp, hx]

lemma handle_exec_ok {reqBody : Option String} {exec : List String → Option String}
    {base : List String} {msg : String} {d : Int}
    (hp : parseDelay reqBody = Except.ok d)
    (hx : exec (base ++ ["/t", toString d]) = none) :
    handlePowerAction "windows" "POST" reqBody exec base msg =
      ⟨200, BodyKind.jsonMsg
          (if d > 0 then msg ++ " It will run in " ++ formatGoDuration d ++ "." else msg),
        some (base ++ ["/t", toString d]), none⟩ := by
  simp [handlePowerAction, hp, hx]

/-- C3: a POST on the supported platform whose body unmarshals to a
negative `delaySeconds`, or whose body fails to decode, is answered with
HTTP 400 and the command-execution branch is never reached. -/
theorem invalidDelay_never_executes (body : String)
    (exec : List String → Option String) (base : List String) (msg : String)
    (hp : (∃ j d, decodeFirstValue body = DecodeOutcome.val j ∧
            unmarshalPayload j = Except.ok d ∧ d < 0) ∨
          (∃ j m, decodeFirstValue body = DecodeOutcome.val j ∧
            unmarshalPayload j = Except.error m) ∨
          decodeFirstValue body = DecodeOutcome.decodeErr) :
    (handlePowerAction "windows" "POST" (some body) exec base msg).status = 400 ∧
    (handlePowerAction "windows" "POST" (some body) exec base msg).invoked = none := by
  have herr : ∃ e : DelayError, parseDelay (some body) = Except.error e := by
    rcases hp with ⟨j, d, h1, h2, h3⟩ | ⟨j, m, h1, h2⟩ | h1
    · exact ⟨_, by simp only [parseDelay, h1, h2]; rw [if_pos h3]⟩
    · exact ⟨DelayError.malformedRequest m, by simp [parseDelay, h1, h2]⟩
    · exact ⟨DelayError.malformedRequest decodeErrMsg, by simp [parseDelay, h1]⟩
  obtain ⟨e, he⟩ := herr
  rw [handle_parse_error he]
  exact ⟨rfl, rfl⟩

/-- C3 witness: the body with `delaySeconds` equal to `-5`. -/
theorem invalidDelay_never_executes_witness :
    (handlePowerAction "windows" "POST" (some "\x7b\"delaySeconds\": -5\x7d")
      (fun _ => none) ["/s"] "Shutdown command staged. The machine is powering off.").status
        = 400 ∧
    (handlePowerAction "windows" "POST" (some "\x7b\"delaySeconds\": -5\x7d")
      (fun _ => none) ["/s"] "Shutdown command staged. The machine is powering off.").invoked
        = none :=
  invalidDelay_never_executes "\x7b\"delaySeconds\": -5\x7d" (fun _ => none) ["/s"]
    "Shutdown command staged. The machine is powering off."
    (Or.inl ⟨Json.objVal [("delaySeconds", Json.intNum (-5))], -5, rfl, rfl, by decide⟩)

/-- C4 counterexample: the 405 outcome does not carry the JSON `message`
envelope — a GET to `/shutdown` is answered by `http.Error` with the
plain text `method not allowed`. -/
theorem response_envelope_counterexample :
    (shutdownHandler "windows" "GET" none (fun _ => none)).status = 405 ∧
    (shutdownHandler "windows" "GET" none (fun _ => none)).body =
      BodyKind.plainText "method not allowed" ∧
    (shutdownHandler "windows" "GET" none (fun _ => none)).body.isJsonEnvelope = false :=
  ⟨rfl, rfl, rfl⟩

/-- C4 amended: every POST outcome carries the JSON envelope (a JSON
object with a single `message` string field) and each outcome class gets
exactly its listed status — unsupported platform 501, bad input 400,
execution failure 500, success 200 — while the wrong-method outcome is
405 with `http.Error`'s plain reason text instead of the envelope;
consequently every POST response has the envelope and a status among
200/400/500/501. -/
theorem response_envelope_amended (goos method : String) (reqBody : Option String)
    (exec : List String → Option String) (base : List String) (msg : String) :
    (method ≠ "POST" →
      handlePowerAction goos method reqBody exec base msg =
        ⟨405, BodyKind.plainText "method not allowed", none, none⟩) ∧
    (goos ≠ "windows" →
      handlePowerAction goos "POST" reqBody exec base msg =
        ⟨501, BodyKind.jsonMsg "Power control commands are available only on Windows hosts.",
          none, none⟩) ∧
    (∀ e : DelayError, parseDelay reqBody = Except.error e →
      handlePowerAction "windows" "POST" reqBody exec base msg =
        ⟨400, BodyKind.jsonMsg e.message, none, none⟩) ∧
    (∀ (d : Int) (osErr : String), parseDelay reqBody = Except.ok d →
      exec (base ++ ["/t", toString d]) = some osErr →
      handlePowerAction "windows" "POST" reqBody exec base msg =
        ⟨500, BodyKind.jsonMsg "Failed to execute power command.",
          some (base ++ ["/t", toString d]), some (base ++ ["/t", toString d], osErr)⟩) ∧
    (∀ d : Int, parseDelay reqBody = Except.ok d →
      exec (base ++ ["/t", toString d]) = none →
      handlePowerAction "windows" "POST" reqBody exec base msg =
        ⟨200, BodyKind.jsonMsg
            (if d > 0 then msg ++ " It will run in " ++ formatGoDuration d ++ "." else msg),
          some (base ++ ["/t", toString d]), none⟩) ∧
    (method = "POST" →
      (handlePowerAction goos method reqBody exec base msg).body.isJsonEnvelope = true ∧
      ((handlePowerAction goos method reqBody exec base msg).status = 200 ∨
       (handlePowerAction goos method reqBody exec base msg).status = 400 ∨
       (handlePowerAction goos method reqBody exec base msg).status = 500 ∨
       (handlePowerAction goos method reqBody exec base msg).status = 501)) := by
  refine ⟨fun h => handle_not_post h, fun h => handle_not_windows h,
    fun e he => handle_parse_error he, fun d osErr hp hx => handle_exec_fail hp hx,
    fun d hp hx => handle_exec_ok hp hx, ?_⟩
  intro h
  subst h
  by_cases hg : goos = "windows"
  · subst hg
    cases hp : parseDelay reqBody with
    | error e =>
      rw [handle_parse_error hp]
      exact ⟨rfl, Or.inr (Or.inl rfl)⟩
    | ok d =>
      cases hx : exec (base ++ ["/t", toString d]) with
      | some osErr =>
        rw [handle_exec_fail hp hx]
        exact ⟨rfl, Or.inr (Or.inr (Or.inl rfl))⟩
      | none =>
        rw [handle_exec_ok hp hx]
        exact ⟨rfl, Or.inl rfl⟩
  · rw [handle_not_windows hg]
    exact ⟨rfl, Or.inr (Or.inr (Or.inr rfl))⟩

/-- C4 witness: concrete instances of two outcome classes — a GET is
answered 405 with the plain reason text, and a POST on linux is answered
501 with the JSON envelope. -/
theorem response_envelope_amended_witness :
    (handlePowerAction "linux" "GET" none (fun _ => none) ["/s"] "m" =
      ⟨405, BodyKind.plainText "method not allowed", none, none⟩) ∧
    (handlePowerAction "linux" "POST" none (fun _ => none) ["/s"] "m" =
      ⟨501, BodyKind.jsonMsg "Power control commands are available only on Windows hosts.",
        none, none⟩) :=
  ⟨(response_envelope_amended "linux" "GET" none (fun _ => none) ["/s"] "m").1 (by decide),
   (response_envelope_amended "linux" "POST" none (fun _ => none) ["/s"] "m").2.1 (by decide)⟩

/-- C5: a POST on a non-Windows host is answered with HTTP 501 and the
exact advisory message, whatever the body; the result does not depend on
the body and neither the delay parser's verdict nor the executor is
consulted (`invoked = none`). -/
theorem platform_gate (goos : String) (reqBody : Option String)
    (exec : List String → Option String) (base : List String) (msg : String)
    (hg : goos ≠ "windows") :
    handlePowerAction goos "POST" reqBody exec base msg =
      ⟨501, BodyKind.jsonMsg "Power control commands are available only on Windows hosts.",
        none, none⟩ :=
  handle_not_windows hg

/-- C5 witness: `/restart-bios` on linux with a body present. -/
theorem platform_gate_witness :
    restartFirmwareHandler "linux" "POST" (some "\x7b\"delaySeconds\": 9\x7d")
        (fun _ => none) =
      ⟨501, BodyKind.jsonMsg "Power control commands are available only on Windows hosts.",
        none, none⟩ :=
  platform_gate "linux" (some "\x7b\"delaySeconds\": 9\x7d") (fun _ => none) ["/r", "/fw"]
    "Firmware restart command staged. The machine will reboot into BIOS/UEFI."
    (by decide)

lemma formatGoDuration_no_wrap (n : Nat) (hn : 0 < n) (hle : n ≤ 9223372036) :
    formatGoDuration (n : Int) = secondsCore n "" := by
  have hx0 : (0 : Int) ≤ (n : Int) * 1000000000 := by positivity
  have hxlt : (n : Int) * 1000000000 < 9223372036854775808 := by
    have h1 : (n : Int) ≤ 9223372036 := by exact_mod_cast hle
    nlinarith
  have hwrap : i64wrap ((n : Int) * 1000000000) = (n : Int) * 1000000000 := by
    unfold i64wrap
    rw [Int.emod_eq_of_lt (by omega) (by omega)]
    omega
  have htmod : Int.tmod ((n : Int) * 1000000000) 1000000000 = 0 := by
    rw [Int.tmod_eq_emod hx0 (by norm_num)]
    exact Int.mul_emod_left _ _
  have hround : goDurationRound ((n : Int) * 1000000000) 1000000000
      = (n : Int) * 1000000000 := by
    simp only [goDurationRound, htmod, lessThanHalf]
    rw [if_neg (by norm_num), if_neg (by omega)]
    norm_num
  have habs : ((n : Int) * 1000000000).natAbs = n * 1000000000 := by
    rw [Int.natAbs_mul]
    simp
  have hge : ¬ (n * 1000000000 < 1000000000) := by
    have h1 : 1 * 1000000000 ≤ n * 1000000000 := Nat.mul_le_mul_right _ hn
    omega
  have hfrac : fmtFrac (n * 1000000000) 9 = ("", n) := by
    have hp9 : (10 : Nat) ^ 9 = 1000000000 := by norm_num
    simp only [fmtFrac, hp9, Nat.mul_mod_left, if_pos trivial, if_true]
    rw [Nat.mul_div_cancel _ (by norm_num)]
  have hstr : goDurationString ((n : Int) * 1000000000) = secondsCore n "" := by
    simp only [goDurationString, habs, hfrac]
    rw [if_neg hge, if_neg (by omega)]
  have hideal : formatGoDuration (n : Int)
      = goDurationString (goDurationRound (i64wrap ((n : Int) * 1000000000)) 1000000000) := rfl
  rw [hideal, hwrap, hround, hstr]

/-- C6 (corrected): on a successful execution, a positive delay appends
the rendering of `time.Duration(delaySeconds) * time.Second` rounded to
the nearest second; for every delay up to 9223372036 seconds — beyond
which the int64 nanosecond product wraps — that rendering is exactly the
idealised human-readable restatement of the scheduled delay, and 30
seconds renders as `30s`; delay 0 leaves the base message unmodified. -/
theorem success_message (reqBody : Option String) (exec : List String → Option String)
    (base : List String) (msg : String) (d : Int)
    (hp : parseDelay reqBody = Except.ok d)
    (hx : exec (base ++ ["/t", toString d]) = none) :
    (d > 0 → handlePowerAction "windows" "POST" reqBody exec base msg =
      ⟨200, BodyKind.jsonMsg (msg ++ " It will run in " ++ formatGoDuration d ++ "."),
        some (base ++ ["/t", toString d]), none⟩) ∧
    (d = 0 → handlePowerAction "windows" "POST" reqBody exec base msg =
      ⟨200, BodyKind.jsonMsg msg, some (base ++ ["/t", toString d]), none⟩) ∧
    (d > 0 → d ≤ 9223372036 → formatGoDuration d = idealSecondsRendering d) ∧
    formatGoDuration 30 = "30s" ∧
    idealSecondsRendering 30 = "30s" := by
  refine ⟨?_, ?_, ?_, rfl, rfl⟩
  · intro hd
    rw [handle_exec_ok hp hx, if_pos hd]
  · intro hd
    subst hd
    rw [handle_exec_ok hp hx, if_neg (by decide)]
  · intro hd0 hdle
    obtain ⟨n, rfl⟩ := Int.eq_ofNat_of_zero_le (le_of_lt hd0)
    have hn : 0 < n := by exact_mod_cast hd0
    have hnle : n ≤ 9223372036 := by exact_mod_cast hdle
    rw [formatGoDuration_no_wrap n hn hnle]
    simp [idealSecondsRendering]

/-- C6 counterexample: at `delaySeconds` 10000000000 the int64
nanosecond product wraps, so the program's 200 message restates the
wrapped negative duration `-2346317h47m54s` rather than the
`2777777h46m40s` restatement of the scheduled delay. -/
theorem success_message_counterexample :
    formatGoDuration 10000000000 = "-2346317h47m54s" ∧
    idealSecondsRendering 10000000000 = "2777777h46m40s" ∧
    formatGoDuration 10000000000 ≠ idealSecondsRendering 10000000000 ∧
    shutdownHandler "windows" "POST" (some "\x7b\"delaySeconds\": 10000000000\x7d")
        (fun _ => none) =
      ⟨200, BodyKind.jsonMsg ("Shutdown command staged. The machine is powering off." ++
          " It will run in -2346317h47m54s."),
        some ["/s", "/t", "10000000000"], none⟩ := by
  refine ⟨rfl, rfl, by decide, rfl⟩

/-- C6 witness: POST `/shutdown` with `delaySeconds` 30 on a succeeding
executor yields HTTP 200 with the base message followed by the `30s`
restatement of the delay. -/
theorem success_message_witness :
    shutdownHandler "windows" "POST" (some "\x7b\"delaySeconds\": 30\x7d") (fun _ => none) =
      ⟨200, BodyKind.jsonMsg
          "Shutdown command staged. The machine is powering off. It will run in 30s.",
        some ["/s", "/t", "30"], none⟩ :=
  (success_message (some "\x7b\"delaySeconds\": 30\x7d") (fun _ => none) ["/s"]
    "Shutdown command staged. The machine is powering off." 30 rfl rfl).1 (by decide)

/-- C7: when the platform command fails on a valid request, the response
is HTTP 500 with the exact generic message; the attempted arguments and
the OS error go to the log record only — the response body is the same
constant string whatever they are. -/
theorem command_failure (reqBody : Option String) (exec : List String → Option String)
    (base : List String) (msg osErr : String) (d : Int)
    (hp : parseDelay reqBody = Except.ok d)
    (hx : exec (base ++ ["/t", toString d]) = some osErr) :
    handlePowerAction "windows" "POST" reqBody exec base msg =
      ⟨500, BodyKind.jsonMsg "Failed to execute power command.",
        some (base ++ ["/t", toString d]), some (base ++ ["/t", toString d], osErr)⟩ :=
  handle_exec_fail hp hx

/-- C7 witness: POST `/restart` with no body and a spawning failure
yields HTTP 500, the exact generic message, and the log record with the
attempted arguments and the underlying error. -/
theorem command_failure_witness :
    restartHandler "windows" "POST" none (fun _ => some "exec: not found") =
      ⟨500, BodyKind.jsonMsg "Failed to execute power command.",
        some ["/r", "/t", "0"], some (["/r", "/t", "0"], "exec: not found")⟩ :=
  command_failure none (fun _ => some "exec: not found") ["/r"]
    "Restart command staged. The machine is restarting." "exec: not found" 0 rfl rfl

/-- C10: the decoder reads only the first JSON value of the body, so a
valid object followed by trailing bytes succeeds with the decoded delay,
and the body `null` succeeds with delay 0; neither is a malformed
request. -/
theorem parseDelay_lenient_inputs :
    parseDelay (some "\x7b\"delaySeconds\":5\x7dgarbage") = Except.ok 5 ∧
    parseDelay (some "null") = Except.ok 0 :=
  ⟨rfl, rfl⟩

lemma serviceLoop_shape (events : List SvcEvent) :
    ∃ n : Nat,
      serviceLoop events = ⟨List.replicate n runningStatus, none⟩ ∨
      serviceLoop events =
        ⟨List.replicate n runningStatus ++ [⟨SvcState.stopped, false⟩], some (false, 0)⟩ ∨
      serviceLoop events =
        ⟨List.replicate n runningStatus ++
          [⟨SvcState.stopPending, true⟩, ⟨SvcState.stopped, false⟩], some (true, 0)⟩ := by
  induction events with
  | nil => exact ⟨0, Or.inl rfl⟩
  | cons e rest ih =>
    cases e with
    | serverDone err => exact ⟨0, Or.inr (Or.inl rfl)⟩
    | control c =>
      cases c with
      | interrogate =>
        obtain ⟨n, h | h | h⟩ := ih
        · exact ⟨n + 1, Or.inl (by simp [serviceLoop, h, List.replicate_succ])⟩
        · exact ⟨n + 1, Or.inr (Or.inl (by simp [serviceLoop, h, List.replicate_succ]))⟩
        · exact ⟨n + 1, Or.inr (Or.inr (by simp [serviceLoop, h, List.replicate_succ]))⟩
      | stop => exact ⟨0, Or.inr (Or.inr rfl)⟩
      | shutdown => exact ⟨0, Or.inr (Or.inr rfl)⟩
      | other => exact ih

lemma chain_le_one_replicate (n : Nat) (l : List Nat)
    (hl : List.Chain' (· ≤ ·) (1 :: l)) :
    List.Chain' (· ≤ ·) (1 :: (List.replicate n 1 ++ l)) := by
  induction n with
  | zero => simpa using hl
  | succ n ih =>
    rw [List.replicate_succ, List.cons_append, List.chain'_cons]
    exact ⟨le_refl 1, ih⟩

lemma execute_trace_head (events : List SvcEvent) :
    ∃ rest, (windowsServiceExecute events).trace =
      ⟨SvcState.startPending, false⟩ :: runningStatus :: rest :=
  ⟨(serviceLoop events).trace, rfl⟩

lemma execute_ord_chain (events : List SvcEvent) :
    List.Chain' (· ≤ ·)
      ((windowsServiceExecute events).trace.map (fun st => st.state.ord)) := by
  obtain ⟨n, h | h | h⟩ := serviceLoop_shape events <;>
    · rw [windowsServiceExecute]
      simp only [h, List.map_cons, List.map_append, List.map_replicate, runningStatus,
        SvcState.ord, List.map_nil]
      rw [List.chain'_cons]
      refine ⟨by omega, ?_⟩
      first
      | · have := chain_le_one_replicate n [] (by simp)
          simpa using this
      | · apply chain_le_one_replicate
          simp [List.chain'_cons]

lemma execute_stopped_only_last (events : List SvcEvent) :
    SvcState.stopped ∉ ((windowsServiceExecute events).trace.map SvcStatus.state).dropLast := by
  obtain ⟨n, h | h | h⟩ := serviceLoop_shape events <;>
    rw [windowsServiceExecute] <;>
    simp only [h, List.map_cons, List.map_append, List.map_replicate, runningStatus,
      List.map_nil]
  · intro hmem
    have := List.dropLast_subset _ hmem
    simp [List.mem_replicate] at this
  · rw [show (SvcState.startPending :: SvcState.running ::
        (List.replicate n SvcState.running ++ [SvcState.stopped])) =
        (SvcState.startPending :: SvcState.running ::
          List.replicate n SvcState.running) ++ [SvcState.stopped] by simp,
      List.dropLast_concat]
    simp [List.mem_replicate]
  · rw [show (SvcState.startPending :: SvcState.running ::
        (List.replicate n SvcState.running ++ [SvcState.stopPending, SvcState.stopped])) =
        (SvcState.startPending :: SvcState.running ::
          (List.replicate n SvcState.running ++ [SvcState.stopPending])) ++
            [SvcState.stopped] by simp,
      List.dropLast_concat]
    simp [List.mem_replicate]

lemma execute_returns_iff_stopped (events : List SvcEvent) :
    (windowsServiceExecute events).returned.isSome = true ↔
      SvcState.stopped ∈ (windowsServiceExecute events).trace.map SvcStatus.state := by
  obtain ⟨n, h | h | h⟩ := serviceLoop_shape events <;>
    rw [windowsServiceExecute] <;>
    simp [h, runningStatus, List.mem_replicate]

lemma execute_stop_tail (events : List SvcEvent)
    (h : (windowsServiceExecute events).returned = some (true, 0)) :
    ∃ pre, (windowsServiceExecute events).trace =
      pre ++ [⟨SvcState.stopPending, true⟩, ⟨SvcState.stopped, false⟩] := by
  obtain ⟨n, hs | hs | hs⟩ := serviceLoop_shape events <;>
    rw [windowsServiceExecute] at h ⊢ <;> simp only [hs] at h ⊢
  · simp at h
  · simp at h
  · exact ⟨⟨SvcState.startPending, false⟩ :: runningStatus :: List.replicate n runningStatus,
      by simp⟩

/-- C8: the supervised lifecycle reports a linear, cycle-free sequence:
it begins StartPending then Running; the reported states only move
forward in the order StartPending, Running, StopPending, Stopped;
Stopped is reported at most once, only as the last report, and exactly
when the routine returns; on the Stop/Shutdown return path the last two
reports are StopPending then Stopped; and an Interrogate request reports
the current status and changes nothing else about the run. -/
theorem service_lifecycle (events : List SvcEvent) :
    (∃ rest, (windowsServiceExecute events).trace =
      ⟨SvcState.startPending, false⟩ :: runningStatus :: rest) ∧
    List.Chain' (· ≤ ·)
      ((windowsServiceExecute events).trace.map (fun st => st.state.ord)) ∧
    SvcState.stopped ∉ ((windowsServiceExecute events).trace.map SvcStatus.state).dropLast ∧
    ((windowsServiceExecute events).returned.isSome = true ↔
      SvcState.stopped ∈ (windowsServiceExecute events).trace.map SvcStatus.state) ∧
    ((windowsServiceExecute events).returned = some (true, 0) →
      ∃ pre, (windowsServiceExecute events).trace =
        pre ++ [⟨SvcState.stopPending, true⟩, ⟨SvcState.stopped, false⟩]) ∧
    (∀ rest, serviceLoop (SvcEvent.control SvcCmd.interrogate :: rest) =
      ⟨runningStatus :: (serviceLoop rest).trace, (serviceLoop rest).returned⟩) ∧
    (∀ rest, serviceLoop (SvcEvent.control SvcCmd.stop :: rest) =
      ⟨[⟨SvcState.stopPending, true⟩, ⟨SvcState.stopped, false⟩], some (true, 0)⟩) ∧
    (∀ rest, serviceLoop (SvcEvent.control SvcCmd.shutdown :: rest) =
      ⟨[⟨SvcState.stopPending, true⟩, ⟨SvcState.stopped, false⟩], some (true, 0)⟩) :=
  ⟨execute_trace_head events, execute_ord_chain events, execute_stopped_only_last events,
    execute_returns_iff_stopped events, execute_stop_tail events,
    fun _ => rfl, fun _ => rfl, fun _ => rfl⟩

/-- C8 witness: a run that is interrogated once and then stopped
reports StartPending, Running, Running (the interrogation), StopPending,
Stopped, and returns. -/
theorem service_lifecycle_witness :
    (windowsServiceExecute
        [SvcEvent.control SvcCmd.interrogate, SvcEvent.control SvcCmd.stop]).trace =
      [⟨SvcState.startPending, false⟩, runningStatus, runningStatus,
        ⟨SvcState.stopPending, true⟩, ⟨SvcState.stopped, false⟩] ∧
    (windowsServiceExecute
        [SvcEvent.control SvcCmd.interrogate, SvcEvent.control SvcCmd.stop]).returned.isSome
      = true :=
  ⟨rfl,
   (service_lifecycle
      [SvcEvent.control SvcCmd.interrogate, SvcEvent.control SvcCmd.stop]).2.2.2.1.mpr
    (by decide)⟩

/-- C9 counterexample: in supervised mode a bind failure does not exit
non-zero — `Execute` reports Stopped with service exit code 0 and the
process exit status is 0. -/
theorem startup_failure_counterexample :
    (windowsServiceExecute
      [SvcEvent.serverDone (some "listen tcp :8181: bind: address already in use")]).returned
        = some (false, 0) ∧
    mainSupervisedExitCode
      [SvcEvent.serverDone (some "listen tcp :8181: bind: address already in use")] = 0 :=
  ⟨rfl, rfl⟩

/-- C9 amended: a bind failure is fatal with a non-zero exit status in
standalone mode (`log.Fatalf` exits 1); in supervised mode the service
routine reports Stopped to the service manager with service exit code 0
and the process exits with status 0. -/
theorem startup_failure_amended (e : String) :
    mainStandaloneExitCode (some e) = 1 ∧
    (windowsServiceExecute [SvcEvent.serverDone (some e)]).trace =
      [⟨SvcState.startPending, false⟩, runningStatus, ⟨SvcState.stopped, false⟩] ∧
    (windowsServiceExecute [SvcEvent.serverDone (some e)]).returned = some (false, 0) ∧
    mainSupervisedExitCode [SvcEvent.serverDone (some e)] = 0 :=
  ⟨rfl, rfl, rfl, rfl⟩

end WindowsControl
